import Mathlib

/-!
# Verification of the end-to-end key-lifecycle protocol

Shallow embedding of the key-directory server (backend/src/models/keys.model.ts,
backend/src/routes/keys.routes.ts, backend/src/routes/chat.routes.ts,
backend/src/socket/index.ts, the users router) and of the client agent
(frontend crypto-helper.js and the main application logic file), together with
theorems settling the frozen claims about them.

Database rows are modelled as lists of records; the supabase `upsert` calls are
modelled as replace-or-append keyed on the table's conflict target
(`user_keys.user_id` is the primary key, `chat_keys` is UNIQUE(chat_id,
recipient_id) with `onConflict: 'chat_id,recipient_id'`).  Infrastructure
failures (a supabase error, a network outage) are outside the model: each
operation is modelled on its non-error path, which is the path every claim is
about.  Web Crypto primitives are abstracted into a `CryptoModel` of pure
functions; fallible decryption returns `Option`.
-/

namespace SocialApp

/-! ## Server-side data model (schema.sql, keys.model.ts, chat.model.ts) -/

/-- A row of the `user_keys` table.  `public_key` is NOT NULL in the schema;
the two encrypted columns are nullable (a row created by the standalone
public-key upsert has no encrypted keys yet). -/
structure UserKeyRec where
  user_id : String
  public_key : String
  encrypted_master_key : Option String
  encrypted_rsa_private_key : Option String
deriving DecidableEq, Repr

/-- A row of the `chat_keys` table (UNIQUE(chat_id, recipient_id)). -/
structure ChatKeyRec where
  chat_id : String
  sender_id : String
  recipient_id : String
  encrypted_chat_key : String
deriving DecidableEq, Repr

/-- A row of the `chats` table (participants as a uuid array). -/
structure Chat where
  id : String
  participants : List String
deriving DecidableEq, Repr

/-- The directory server's persistent state. -/
structure ServerState where
  userKeys : List UserKeyRec
  chatKeys : List ChatKeyRec
  chats : List Chat
deriving DecidableEq, Repr

/-- Generic supabase upsert on a list of rows: if a row matching the conflict
target exists, every matching row is updated in place; otherwise the new row is
appended. -/
def upsertList (p : α → Bool) (upd : α → α) (new : α) (l : List α) : List α :=
  if l.any p then l.map (fun a => if p a then upd a else a) else l ++ [new]

/-! ### KeysModel (backend/src/models/keys.model.ts) -/

/-- `KeysModel.getPublicKey`: select public_key from user_keys where user_id. -/
def getPublicKey (s : ServerState) (userId : String) : Option String :=
  (s.userKeys.find? (fun r => r.user_id == userId)).map (·.public_key)

/-- `KeysModel.upsertPublicKey`: upsert {user_id, public_key} — on conflict
only the public_key column is rewritten, a fresh row has NULL encrypted keys. -/
def upsertPublicKey (s : ServerState) (userId pk : String) : ServerState :=
  { s with userKeys :=
      (upsertList (fun r => r.user_id == userId)
        (fun r => { r with public_key := pk })
        { user_id := userId, public_key := pk,
          encrypted_master_key := none, encrypted_rsa_private_key := none }
        s.userKeys) }

/-- `KeysModel.uploadUserKeys`: upsert of the full row
{user_id, public_key, encrypted_master_key, encrypted_rsa_private_key}. -/
def uploadUserKeys (s : ServerState) (userId rsaPublicKey emk eprk : String) :
    ServerState :=
  { s with userKeys :=
      (upsertList (fun r => r.user_id == userId)
        (fun _ => { user_id := userId, public_key := rsaPublicKey,
                    encrypted_master_key := some emk,
                    encrypted_rsa_private_key := some eprk })
        { user_id := userId, public_key := rsaPublicKey,
          encrypted_master_key := some emk,
          encrypted_rsa_private_key := some eprk }
        s.userKeys) }

/-- `KeysModel.getUserKeys`: select * from user_keys where user_id. -/
def getUserKeys (s : ServerState) (userId : String) : Option UserKeyRec :=
  s.userKeys.find? (fun r => r.user_id == userId)

/-- `KeysModel.deleteUserChatKeys`: delete from chat_keys where recipient_id =
user, then delete where sender_id = user. -/
def deleteUserChatKeys (s : ServerState) (userId : String) : ServerState :=
  { s with chatKeys :=
      ((s.chatKeys.filter (fun r => !(r.recipient_id == userId))).filter
        (fun r => !(r.sender_id == userId))) }

/-- `KeysModel.shareChatKey`: upsert on (chat_id, recipient_id); the stored row
carries the caller as sender_id and the new wrapped key. -/
def shareChatKey (s : ServerState) (chatId senderId recipientId ek : String) :
    ServerState :=
  { s with chatKeys :=
      (upsertList (fun r => r.chat_id == chatId && r.recipient_id == recipientId)
        (fun _ => { chat_id := chatId, sender_id := senderId,
                    recipient_id := recipientId, encrypted_chat_key := ek })
        { chat_id := chatId, sender_id := senderId,
          recipient_id := recipientId, encrypted_chat_key := ek }
        s.chatKeys) }

/-- `KeysModel.getChatKey`: the wrapped key where (chat_id, recipient_id). -/
def getChatKey (s : ServerState) (chatId userId : String) : Option String :=
  (s.chatKeys.find? (fun r => r.chat_id == chatId && r.recipient_id == userId)).map
    (·.encrypted_chat_key)

/-- `KeysModel.getAllChatKeys`: every chat_keys row of one chat. -/
def getAllChatKeys (s : ServerState) (chatId : String) : List ChatKeyRec :=
  s.chatKeys.filter (fun r => r.chat_id == chatId)

/-! ### ChatModel membership helpers (backend/src/models/chat.model.ts) -/

/-- `ChatModel.getChatById`. -/
def getChatById (s : ServerState) (chatId : String) : Option Chat :=
  s.chats.find? (fun c => c.id == chatId)

/-- `ChatModel.isUserInChat`: false when the chat is missing, else membership
of the participants array. -/
def isUserInChat (s : ServerState) (chatId userId : String) : Bool :=
  match getChatById s chatId with
  | none => false
  | some c => c.participants.contains userId

/-! ## Key directory HTTP routes -/

/-- Response of `POST /api/keys` (keys.routes.ts router.post('/')): on the
happy path the route unconditionally upserts the full row and answers
`{message: 'Keys uploaded successfully'}` — the response shape carries no
`key_rotation` field. -/
inductive UploadKeysResponse
  | ok (message : String)
deriving DecidableEq, Repr

/-- `POST /api/keys` (keys.routes.ts lines 34-58): validated body, caller from
the verified token; stores the full key row and reports a plain message. -/
def postKeys (s : ServerState) (callerId rsaPublicKey emk eprk : String) :
    ServerState × UploadKeysResponse :=
  (uploadUserKeys s callerId rsaPublicKey emk eprk, .ok "Keys uploaded successfully")

/-- Response of `POST /api/users/public-key` (users router): carries the
`key_rotation` boolean. -/
structure PublicKeyUploadResponse where
  success : Bool
  message : String
  key_rotation : Bool
deriving DecidableEq, Repr

/-- `POST /api/users/public-key` (users router): looks up whether the caller
already had a public key, upserts the new one, and — only in the rotation case
— deletes every chat_keys row where the caller is recipient or sender. -/
def postPublicKey (s : ServerState) (callerId publicKey : String) :
    ServerState × PublicKeyUploadResponse :=
  let isKeyRotation := (getPublicKey s callerId).isSome
  let s1 := upsertPublicKey s callerId publicKey
  let s2 := if isKeyRotation then deleteUserChatKeys s1 callerId else s1
  (s2, { success := true, message := "Public key stored successfully",
         key_rotation := isKeyRotation })

/-- Response of `GET /api/keys/:userId` (keys.routes.ts router.get('/:userId')):
403 when the caller asks for another user's row (no key material in the
response body), 404 when the row is missing, else the three key fields. -/
inductive GetKeysResponse
  | forbidden
  | notFound
  | ok (encrypted_master_key encrypted_rsa_private_key : Option String)
       (rsa_public_key : String)
deriving DecidableEq, Repr

/-- `GET /api/keys/:userId`: a user can only fetch their own keys. -/
def getKeysRoute (s : ServerState) (callerId userId : String) : GetKeysResponse :=
  if userId ≠ callerId then .forbidden
  else
    match getUserKeys s userId with
    | none => .notFound
    | some r => .ok r.encrypted_master_key r.encrypted_rsa_private_key r.public_key

/-- Response of `GET /api/users/:userId/public-key` (users router). -/
inductive GetPublicKeyResponse
  | notFound
  | ok (public_key : String)
deriving DecidableEq, Repr

/-- `GET /api/users/:userId/public-key`: any authenticated caller; the caller
identity is never compared with the requested user. -/
def getPublicKeyRoute (s : ServerState) (_callerId userId : String) :
    GetPublicKeyResponse :=
  match getPublicKey s userId with
  | none => .notFound
  | some pk => .ok pk

/-- Response of `POST /api/chats/:chatId/share-key` (chat.routes.ts). -/
inductive ShareKeyResponse
  | chatNotFound
  | notAuthorized
  | recipientNotInChat
  | ok
deriving DecidableEq, Repr

/-- `POST /api/chats/:chatId/share-key`: 404 when the chat is missing, 403 when
the caller is not a participant, 400 when the recipient is not a participant,
else the wrapped key is upserted. -/
def shareKeyRoute (s : ServerState) (callerId chatId recipientId ek : String) :
    ServerState × ShareKeyResponse :=
  match getChatById s chatId with
  | none => (s, .chatNotFound)
  | some chat =>
    if !(chat.participants.contains callerId) then (s, .notAuthorized)
    else if !(chat.participants.contains recipientId) then (s, .recipientNotInChat)
    else (shareChatKey s chatId callerId recipientId ek, .ok)

/-- `GET /api/chats/:chatId/keys`: participant-restricted listing of every
chat_keys row of the chat; `none` models the 404/403 responses. -/
def getChatKeysRoute (s : ServerState) (callerId chatId : String) :
    Option (List ChatKeyRec) :=
  match getChatById s chatId with
  | none => none
  | some chat =>
    if chat.participants.contains callerId then some (getAllChatKeys s chatId)
    else none

/-! ## Socket handler 'chat:key:share' (backend/src/socket/index.ts) -/

/-- The 'chat:key:received' push delivered to the recipient's room. -/
structure KeyReceivedEvent where
  chatId : String
  fromUser : String
  encrypted_chat_key : String
deriving DecidableEq, Repr

/-- Outcome of the socket 'chat:key:share' handler. -/
inductive SocketShareOutcome
  | errorNotAuthorized
  | shared (ev : KeyReceivedEvent)
deriving DecidableEq, Repr

/-- socket.on('chat:key:share'): checks only that the SENDER is in the chat,
then stores the wrapped key for the given recipient (no membership check on
the recipient) and pushes it to the recipient's room. -/
def socketChatKeyShare (s : ServerState) (callerId chatId recipientId ek : String) :
    ServerState × SocketShareOutcome :=
  if !(isUserInChat s chatId callerId) then (s, .errorNotAuthorized)
  else (shareChatKey s chatId callerId recipientId ek,
        .shared { chatId := chatId, fromUser := callerId, encrypted_chat_key := ek })

/-! ## Client-side crypto primitives (frontend/crypto-helper.js)

Web Crypto calls are abstracted into pure functions; a decryption that would
reject/throw is `none`. -/

/-- Abstract model of the Web Crypto primitives used by CryptoHelper. -/
structure CryptoModel where
  /-- crypto.subtle.digest('SHA-256', ·) -/
  sha256 : String → String
  /-- btoa over the digest bytes -/
  b64 : String → String
  /-- PBKDF2 key derivation: (password, salt) ↦ wrapping key -/
  pbkdf2 : String → String → String
  /-- AES-GCM encrypt: (key, plaintext) ↦ blob (ciphertext + iv) -/
  aesEncrypt : String → String → String
  /-- AES-GCM decrypt: (key, blob) ↦ plaintext, `none` on integrity failure -/
  aesDecrypt : String → String → Option String
  /-- RSA-OAEP encrypt: (public key, payload) ↦ blob -/
  rsaEncrypt : String → String → String
  /-- RSA-OAEP decrypt: (private key, blob) ↦ payload, `none` on failure -/
  rsaDecrypt : String → String → Option String
  /-- CryptoHelper.decryptMasterKeyWithPassword: (password, wrapped blob) ↦
  master key, `none` when the password-derived key fails to unwrap -/
  unwrapMK : String → String → Option String

/-- `CryptoHelper.deriveAuthPassword` (crypto-helper.js lines 375-380):
base64(SHA-256(password ++ ":auth:" ++ email)). -/
def deriveAuthPassword (cm : CryptoModel) (password email : String) : String :=
  cm.b64 (cm.sha256 (password ++ ":auth:" ++ email))

/-! ## Client-side state (CryptoHelper fields, localStorage, IndexedDB) -/

/-- The device-local state of one client agent: the CryptoHelper instance
fields, the browser localStorage and the IndexedDB vault entry
EncryptionDB.keys['masterKey']. -/
structure ClientVault where
  privateKey : Option String
  publicKey : Option String
  /-- this.chatKeys : Map chatId → AES key -/
  chatKeysMem : List (String × String)
  /-- browser localStorage as an association list -/
  localStorage : List (String × String)
  /-- IndexedDB EncryptionDB / store 'keys' / entry 'masterKey' -/
  masterKeyIDB : Option String
deriving DecidableEq, Repr

/-- Write-or-replace an entry of an association list (localStorage.setItem /
Map.set). -/
def storePut (st : List (String × String)) (k v : String) : List (String × String) :=
  if st.any (fun kv => kv.1 == k) then
    st.map (fun kv => if kv.1 == k then (k, v) else kv)
  else st ++ [(k, v)]

/-- `CryptoHelper.loadChatKey`: the in-memory map first, then the
localStorage entry `chatKey_<chatId>`.  (The source also refills the memory
map on a localStorage hit; the returned key is the same either way and the
refill is not observable through the operations modelled here.) -/
def loadChatKey (v : ClientVault) (chatId : String) : Option String :=
  match v.chatKeysMem.lookup chatId with
  | some k => some k
  | none => v.localStorage.lookup ("chatKey_" ++ chatId)

/-- Cache a decrypted chat key in the memory map and under
localStorage `chatKey_<chatId>` (done by generateChatKey / decryptChatKey). -/
def cacheChatKey (v : ClientVault) (chatId key : String) : ClientVault :=
  { v with chatKeysMem := storePut v.chatKeysMem chatId key,
           localStorage := storePut v.localStorage ("chatKey_" ++ chatId) key }

/-- `CryptoHelper.decryptChatKey`: RSA-decrypt the wrapped chat key with the
private key, then cache it; `none` when there is no private key or the
decryption fails (the source throws in both cases). -/
def decryptChatKey (cm : CryptoModel) (v : ClientVault) (encryptedKey chatId : String) :
    Option (String × ClientVault) :=
  match v.privateKey with
  | none => none
  | some sk =>
    match cm.rsaDecrypt sk encryptedKey with
    | none => none
    | some k => some (k, cacheChatKey v chatId k)

/-- `CryptoHelper.clearKeys` (crypto-helper.js lines 262-275): null the RSA
pair, clear the chat-key map, and remove every localStorage entry whose name
starts with `chatKey_` or equals `privateKey`.  The IndexedDB master key is
not touched. -/
def clearKeys (v : ClientVault) : ClientVault :=
  { v with privateKey := none, publicKey := none, chatKeysMem := [],
           localStorage := v.localStorage.filter
             (fun kv => !(kv.1.startsWith "chatKey_" || kv.1 == "privateKey")) }

/-- `CryptoHelper.clearMasterKey` (crypto-helper.js lines 652-662): intended
to delete the IndexedDB entry 'masterKey', but its body calls
`this.openDB()` — no `openDB` method exists anywhere on CryptoHelper — so the
call throws a TypeError that the method's own catch swallows after logging.
The deletion is never reached: on the device vault the method is a no-op. -/
def clearMasterKey (v : ClientVault) : ClientVault :=
  v

/-- `CryptoHelper.clearMasterKeyFromIndexedDB` (crypto-helper.js, the working
sibling of clearMasterKey): opens EncryptionDB directly and deletes the
'masterKey' entry. -/
def clearMasterKeyFromIndexedDB (v : ClientVault) : ClientVault :=
  { v with masterKeyIDB := none }

/-- `CryptoHelper.storeMasterKeyInIndexedDB`. -/
def storeMasterKeyInIndexedDB (v : ClientVault) (mk : String) : ClientVault :=
  { v with masterKeyIDB := some mk }

/-- `CryptoHelper.loadMasterKeyFromIndexedDB`. -/
def loadMasterKeyFromIndexedDB (v : ClientVault) : Option String :=
  v.masterKeyIDB

/-! ## Session restore (handleExistingSession, main application logic) -/

/-- User-visible outcome of handleExistingSession. -/
inductive SessionOutcome
  /-- no master key on this device: the login form is shown -/
  | loginFormShown
  /-- 404 from the keys endpoint: 'Account setup incomplete', signed out -/
  | setupIncomplete
  /-- decryptRSAPrivateKey threw: alert 'Encryption key mismatch. This account
  may be corrupted. ...', signed out, clearMasterKey called (a no-op — see
  its definition) -/
  | keyMismatch
  /-- session restored with the decrypted RSA pair -/
  | restored (privateKey publicKey : String)
deriving DecidableEq, Repr

/-- handleExistingSession: load the master key from IndexedDB (absent → show
the login form); download the wrapped RSA keys (absent → setup incomplete);
decrypt the RSA private key with the master key — on failure report the
encryption-key-mismatch alert and call clearMasterKey, which never actually
deletes the cached entry (see clearMasterKey).  A NULL
encrypted_rsa_private_key column behaves like a failing decryption (the
decrypt call throws on it). -/
def handleExistingSession (cm : CryptoModel) (srv : ServerState) (userId : String)
    (v : ClientVault) : ClientVault × SessionOutcome :=
  match loadMasterKeyFromIndexedDB v with
  | none => (v, .loginFormShown)
  | some masterKey =>
    match getKeysRoute srv userId userId with
    | .forbidden => (v, .setupIncomplete)
    | .notFound => (v, .setupIncomplete)
    | .ok emk eprk pk =>
      let _ := emk
      match eprk.bind (cm.aesDecrypt masterKey) with
      | none => (clearMasterKey v, .keyMismatch)
      | some sk =>
        ({ v with privateKey := some sk, publicKey := some pk },
         .restored sk pk)

/-! ## Signup and login (handleSignup / handleLogin, main application logic) -/

/-- Everything handleSignup transmits off the device: the derived auth
password sent to the identity provider (supabase signUp), and the key
payload of `POST /api/keys`. -/
structure SignupTransmission where
  /-- the `password` field of supabaseClient.auth.signUp -/
  authPassword : String
  rsa_public_key : String
  encrypted_master_key : String
  encrypted_rsa_private_key : String
deriving DecidableEq, Repr

/-- handleSignup's transmitted values (steps 2, 3, 7, 9): the master key is
wrapped under PBKDF2(password, SHA-256(email)), the RSA private key under the
master key, and the auth password is deriveAuthPassword — the literal password
appears in no field except through those derivations. -/
def handleSignupTransmission (cm : CryptoModel)
    (password email masterKey rsaPub rsaPriv : String) : SignupTransmission :=
  { authPassword := deriveAuthPassword cm password email,
    rsa_public_key := rsaPub,
    encrypted_master_key := cm.aesEncrypt (cm.pbkdf2 password (cm.sha256 email)) masterKey,
    encrypted_rsa_private_key := cm.aesEncrypt masterKey rsaPriv }

/-- The `password` field handleLogin sends to supabase signInWithPassword. -/
def handleLoginAuthPassword (cm : CryptoModel) (password email : String) : String :=
  deriveAuthPassword cm password email

/-- User-visible outcome of handleLogin (after successful authentication). -/
inductive LoginOutcome
  /-- a throw reached the outer catch: showAlert('error', msg) -/
  | errorAlert (msg : String)
  /-- 'Login successful! Loading your chats...' -/
  | successAlert (masterKey privateKey : String)
deriving DecidableEq, Repr

/-- handleLogin after a successful signInWithPassword: fast path when the
IndexedDB master key exists — on a private-key decryption failure there, the
cached master key is cleared and login silently falls back to password-based
recovery of the master key from the server (no mismatch alert); slow path
when no master key is cached. -/
def handleLogin (cm : CryptoModel) (srv : ServerState) (userId password : String)
    (v : ClientVault) : ClientVault × LoginOutcome :=
  match getKeysRoute srv userId userId with
  | .forbidden => (v, .errorAlert "Failed to fetch encrypted keys from server")
  | .notFound => (v, .errorAlert "Failed to fetch encrypted keys from server")
  | .ok emk eprk pk =>
    match loadMasterKeyFromIndexedDB v with
    | none =>
      -- slow path: decrypt the master key with the password, cache it, then
      -- decrypt the RSA private key
      match emk.bind (cm.unwrapMK password) with
      | none => (v, .errorAlert "decryptMasterKeyWithPassword failed")
      | some mk =>
        let v1 := storeMasterKeyInIndexedDB v mk
        match eprk.bind (cm.aesDecrypt mk) with
        | none =>
          (v1, .errorAlert "Wrong password or corrupted account. Please verify your password or sign up again.")
        | some sk =>
          ({ v1 with privateKey := some sk, publicKey := some pk },
           .successAlert mk sk)
    | some mk =>
      -- fast path: decrypt the RSA private key with the cached master key
      match eprk.bind (cm.aesDecrypt mk) with
      | some sk =>
        ({ v with privateKey := some sk, publicKey := some pk },
         .successAlert mk sk)
      | none =>
        -- cached master key is invalid: clear it (via the working
        -- clearMasterKeyFromIndexedDB) and re-decrypt from server
        let v1 := clearMasterKeyFromIndexedDB v
        match emk.bind (cm.unwrapMK password) with
        | none => (v1, .errorAlert "decryptMasterKeyWithPassword failed")
        | some mk2 =>
          let v2 := storeMasterKeyInIndexedDB v1 mk2
          match eprk.bind (cm.aesDecrypt mk2) with
          | none => (v2, .errorAlert "decryptRSAPrivateKey failed")
          | some sk =>
            ({ v2 with privateKey := some sk, publicKey := some pk },
             .successAlert mk2 sk)

/-! ## Conversation-key resolution (handleStartChat, main application logic) -/

/-- How handleStartChat obtained a usable chat key. -/
inductive ResolveOutcome
  /-- local cache hit (memory map or localStorage) -/
  | cachedLocal (key : String)
  /-- own wrapped record fetched from the server and decrypted -/
  | fetchedFromServer (key : String)
  /-- fresh key generated and shared with every participant -/
  | generatedNew (key : String)
  /-- a throw reached the catch (e.g. 'Recipient public key not found') -/
  | failed (msg : String)
deriving DecidableEq, Repr

/-- The key-resolution part of handleStartChat for a direct chat, in source
order: (1) local cache; (2) `GET /api/chats/:id/keys`, find the record where
we are the recipient, decrypt it; (3) otherwise generate `newKey` (modelling
the random generateChatKey output), cache it, share it wrapped under our own
public key for ourselves, fetch the other participant's public key and share
it wrapped for them.  The share-key responses are not checked by the source.
Returns the updated vault, the updated server state and the outcome. -/
def handleStartChatKey (cm : CryptoModel) (newKey : String) (srv : ServerState)
    (chatId selfId recipientId : String) (v : ClientVault) :
    ClientVault × ServerState × ResolveOutcome :=
  match loadChatKey v chatId with
  | some k => (v, srv, .cachedLocal k)
  | none =>
    let fetched : Option (String × ClientVault) :=
      match getChatKeysRoute srv selfId chatId with
      | none => none
      | some recs =>
        match recs.find? (fun r => r.recipient_id == selfId) with
        | none => none
        | some rec => decryptChatKey cm v rec.encrypted_chat_key chatId
    match fetched with
    | some (k, v1) => (v1, srv, .fetchedFromServer k)
    | none =>
      match v.publicKey with
      | none => (v, srv, .failed "exportPublicKey failed")
      | some myPub =>
        let v1 := cacheChatKey v chatId newKey
        let myEnc := cm.rsaEncrypt myPub newKey
        let (srv1, _) := shareKeyRoute srv selfId chatId selfId myEnc
        match getPublicKey srv1 recipientId with
        | none => (v1, srv1, .failed "Recipient public key not found")
        | some rpk =>
          let recEnc := cm.rsaEncrypt rpk newKey
          let (srv2, _) := shareKeyRoute srv1 selfId chatId recipientId recEnc
          (v1, srv2, .generatedNew newKey)

/-! ## Batch history decryption (loadMessageHistory, main application logic) -/

/-- handleLogout's effect on the device vault: sign-out and socket disconnect
touch no key state; the only key effect is cryptoHelper.clearKeys(). -/
def handleLogout (v : ClientVault) : ClientVault :=
  clearKeys v

/-- The two master-key paths of handleLogin, decided by the IndexedDB probe. -/
inductive LoginPath
  | fast
  | slow
deriving DecidableEq, Repr

/-- Which path handleLogin takes: fast iff the device vault holds a master
key. -/
def loginMasterKeyPath (v : ClientVault) : LoginPath :=
  match loadMasterKeyFromIndexedDB v with
  | some _ => .fast
  | none => .slow

/-! ## Generic facts about the upsert pattern -/

theorem find?_map_replace (p : α → Bool) (new : α) (hnew : p new = true) :
    ∀ l : List α, l.any p = true →
      (l.map (fun a => if p a then new else a)).find? p = some new := by
  intro l
  induction l with
  | nil => simp
  | cons a t ih =>
    intro h
    by_cases hpa : p a = true
    · simp [List.find?, hpa, hnew]
    · have hpa' : p a = false := by simpa using hpa
      have ht : t.any p = true := by simpa [List.any_cons, hpa'] using h
      simpa [List.find?, hpa'] using ih ht

theorem find?_append_single (p : α → Bool) (new : α) (hnew : p new = true) :
    ∀ l : List α, l.any p = false → (l ++ [new]).find? p = some new := by
  intro l
  induction l with
  | nil => simp [List.find?, hnew]
  | cons a t ih =>
    intro h
    have hpa : p a = false := by
      rcases List.any_eq_false.mp h a (by simp) with h'
      simpa using h'
    have ht : t.any p = false := by
      refine List.any_eq_false.mpr ?_
      intro x hx
      exact List.any_eq_false.mp h x (by simp [hx])
    simpa [List.find?, hpa] using ih ht

/-- After an upsert whose row satisfies the conflict predicate, looking the
row up by that predicate finds exactly the upserted row. -/
theorem upsertList_find? (p : α → Bool) (new : α) (hnew : p new = true)
    (l : List α) : (upsertList p (fun _ => new) new l).find? p = some new := by
  unfold upsertList
  by_cases h : l.any p = true
  · simpa [h] using find?_map_replace p new hnew l h
  · have h' : l.any p = false := by simpa using h
    simpa [h'] using find?_append_single p new hnew l h'

theorem filter_map_replace (p : α → Bool) (new : α) (hnew : p new = true) :
    ∀ l : List α,
      (l.map (fun a => if p a then new else a)).filter p
        = (l.filter p).map (fun _ => new) := by
  intro l
  induction l with
  | nil => simp
  | cons a t ih =>
    by_cases hpa : p a = true
    · simp [List.filter, hpa, hnew, ih]
    · have hpa' : p a = false := by simpa using hpa
      simp [List.filter, hpa', ih]

/-- An upsert into a table satisfying the uniqueness constraint (at most one
row matches the conflict target) leaves exactly the upserted row at that
conflict target. -/
theorem upsertList_filter (p : α → Bool) (new : α) (hnew : p new = true)
    (l : List α) (h : (l.filter p).length ≤ 1) :
    (upsertList p (fun _ => new) new l).filter p = [new] := by
  unfold upsertList
  by_cases hany : l.any p = true
  · rcases List.any_eq_true.mp hany with ⟨x, hx, hpx⟩
    have hmem : x ∈ l.filter p := List.mem_filter.mpr ⟨hx, hpx⟩
    have hlen : (l.filter p).length = 1 := by
      have : 0 < (l.filter p).length := List.length_pos.mpr (by
        intro hnil; simp [hnil] at hmem)
      omega
    rcases List.length_eq_one.mp hlen with ⟨a, ha⟩
    simp [hany, filter_map_replace p new hnew, ha]
  · have h' : l.any p = false := by simpa using hany
    have hnil : l.filter p = [] := by
      refine List.filter_eq_nil_iff.mpr ?_
      intro x hx
      simpa using List.any_eq_false.mp h' x hx
    simp [hany, List.filter_append, hnil, List.filter, hnew]

/-- Upserting the same row twice is the same as upserting it once. -/
theorem upsertList_idem (p : α → Bool) (new : α) (hnew : p new = true)
    (l : List α) :
    upsertList p (fun _ => new) new (upsertList p (fun _ => new) new l)
      = upsertList p (fun _ => new) new l := by
  have hfix : ∀ a ∈ upsertList p (fun _ => new) new l,
      (if p a then new else a) = a := by
    intro a ha
    unfold upsertList at ha
    by_cases hany : l.any p = true
    · simp [hany] at ha
      rcases ha with ⟨x, _, hx⟩
      by_cases hpx : p x = true
      · simp [hpx] at hx
        simp [← hx, hnew]
      · have hpx' : p x = false := by simpa using hpx
        simp [hpx'] at hx
        simp [← hx, hpx']
    · have h' : l.any p = false := by simpa using hany
      simp [h'] at ha
      rcases ha with ha | ha
      · have : p a = false := by
          simpa using List.any_eq_false.mp h' a ha
        simp [this]
      · simp [ha, hnew]
  have hany2 : (upsertList p (fun _ => new) new l).any p = true := by
    unfold upsertList
    by_cases hany : l.any p = true
    · rcases List.any_eq_true.mp hany with ⟨x, hx, hpx⟩
      simp only [hany, if_true]
      exact List.any_eq_true.mpr
        ⟨new, List.mem_map.mpr ⟨x, hx, by simp [hpx]⟩, hnew⟩
    · have h' : l.any p = false := by simpa using hany
      simp [h', hnew]
  conv_lhs => rw [upsertList]
  simp only [hany2, if_true]
  exact List.map_congr_left hfix |>.trans (List.map_id _)

/-! ## Small frame lemmas about the server state -/

@[simp] theorem chatKeys_upsertPublicKey (s : ServerState) (u pk : String) :
    (upsertPublicKey s u pk).chatKeys = s.chatKeys := rfl

@[simp] theorem chats_upsertPublicKey (s : ServerState) (u pk : String) :
    (upsertPublicKey s u pk).chats = s.chats := rfl

@[simp] theorem userKeys_shareChatKey (s : ServerState) (c snd r k : String) :
    (shareChatKey s c snd r k).userKeys = s.userKeys := rfl

@[simp] theorem chats_shareChatKey (s : ServerState) (c snd r k : String) :
    (shareChatKey s c snd r k).chats = s.chats := rfl

@[simp] theorem chatKeys_uploadUserKeys (s : ServerState) (u pk emk eprk : String) :
    (uploadUserKeys s u pk emk eprk).chatKeys = s.chatKeys := rfl

theorem getPublicKey_shareChatKey (s : ServerState) (c snd r k u : String) :
    getPublicKey (shareChatKey s c snd r k) u = getPublicKey s u := rfl

theorem getChatById_shareChatKey (s : ServerState) (c snd r k cid : String) :
    getChatById (shareChatKey s c snd r k) cid = getChatById s cid := rfl

/-- Sharing a chat key stores exactly one retrievable record at
(chat_id, recipient_id): the freshly written one. -/
theorem getChatKey_shareChatKey (s : ServerState) (c snd r k : String) :
    getChatKey (shareChatKey s c snd r k) c r = some k := by
  have h := upsertList_find?
    (fun rec : ChatKeyRec => rec.chat_id == c && rec.recipient_id == r)
    { chat_id := c, sender_id := snd, recipient_id := r, encrypted_chat_key := k }
    (by simp) s.chatKeys
  simp [getChatKey, shareChatKey, h]

/-! ## C1 -/

/-- Concrete directory state: user "u" already has a public key on file, and
one wrapped conversation-key record addressed to "u" exists. -/
def s_c1 : ServerState :=
  { userKeys := [{ user_id := "u", public_key := "pkOld",
                   encrypted_master_key := some "emk0",
                   encrypted_rsa_private_key := some "eprk0" }],
    chatKeys := [{ chat_id := "c", sender_id := "u", recipient_id := "u",
                   encrypted_chat_key := "w" }],
    chats := [] }

/-- C1, counterexample: user "u" has a public key on file and a wrapped
conversation-key record; after the full account-keys upsert
(`POST /api/keys`) the record is still there — the route performs no rotation
cleanup (and its response, `UploadKeysResponse`, carries only a message, no
`key_rotation` boolean). -/
theorem c1_put_account_keys_cex :
    (getPublicKey s_c1 "u").isSome = true
    ∧ ((postKeys s_c1 "u" "pkNew" "emk1" "eprk1").1).chatKeys
        = [{ chat_id := "c", sender_id := "u", recipient_id := "u",
             encrypted_chat_key := "w" }]
    ∧ (postKeys s_c1 "u" "pkNew" "emk1" "eprk1").2
        = .ok "Keys uploaded successfully" := by
  refine ⟨by decide, by decide, rfl⟩

/-- C1, amended: the full account-keys upsert (`POST /api/keys`) never touches
the conversation-key table and answers a plain success message with no
rotation flag; the rotation check, the cleanup and the `key_rotation` response
boolean are implemented on the standalone public-key upsert
(`POST /api/users/public-key`), whose flag reports exactly whether a public
key already existed and which runs the cleanup exactly in that case. -/
theorem c1_put_account_keys_amended (s : ServerState) (u pk emk eprk npk : String) :
    ((postKeys s u pk emk eprk).1).chatKeys = s.chatKeys
    ∧ (postKeys s u pk emk eprk).2 = .ok "Keys uploaded successfully"
    ∧ (postPublicKey s u npk).2.key_rotation = (getPublicKey s u).isSome
    ∧ ((getPublicKey s u).isSome = true →
        (postPublicKey s u npk).1 = deleteUserChatKeys (upsertPublicKey s u npk) u)
    ∧ ((getPublicKey s u).isSome = false →
        (postPublicKey s u npk).1 = upsertPublicKey s u npk) := by
  refine ⟨rfl, rfl, rfl, ?_, ?_⟩
  · intro h
    simp [postPublicKey, h]
  · intro h
    simp [postPublicKey, h]

/-- C1 witness: the amended theorem applied at the concrete state `s_c1`. -/
theorem c1_put_account_keys_amended_witness :
    (getPublicKey s_c1 "u").isSome = true
    ∧ (postPublicKey s_c1 "u" "pkNew").1
        = deleteUserChatKeys (upsertPublicKey s_c1 "u" "pkNew") "u" :=
  ⟨by decide,
   (c1_put_account_keys_amended s_c1 "u" "pkNew" "emk1" "eprk1" "pkNew").2.2.2.1
     (by decide)⟩

/-! ## C2 -/

/-- Concrete directory state: user "u" has a public key on file and wrapped
conversation-key records where "u" is recipient, where "u" is sender, and one
unrelated record between "a" and "b". -/
def s_c2 : ServerState :=
  { userKeys := [{ user_id := "u", public_key := "pk0",
                   encrypted_master_key := some "m0",
                   encrypted_rsa_private_key := some "r0" },
                 { user_id := "b", public_key := "pkB",
                   encrypted_master_key := some "mB",
                   encrypted_rsa_private_key := some "rB" }],
    chatKeys := [{ chat_id := "c1", sender_id := "a", recipient_id := "u",
                   encrypted_chat_key := "w1" },
                 { chat_id := "c1", sender_id := "u", recipient_id := "a",
                   encrypted_chat_key := "w2" },
                 { chat_id := "c2", sender_id := "a", recipient_id := "b",
                   encrypted_chat_key := "w3" }],
    chats := [{ id := "c1", participants := ["a", "u"] },
              { id := "c2", participants := ["a", "b"] }] }

/-- C2: after the standalone public-key upsert for a user who already had a
public key on file, no stored wrapped conversation-key record has that user as
recipient or as sender, and listing the keys of any conversation yields zero
records where they are sender or recipient. -/
theorem c2_rotation_cleanup (s : ServerState) (u pk : String)
    (h : (getPublicKey s u).isSome = true) :
    (∀ r ∈ ((postPublicKey s u pk).1).chatKeys, r.recipient_id ≠ u ∧ r.sender_id ≠ u)
    ∧ (∀ c, (getAllChatKeys (postPublicKey s u pk).1 c).filter
        (fun r => r.recipient_id == u || r.sender_id == u) = []) := by
  have hstate : (postPublicKey s u pk).1
      = deleteUserChatKeys (upsertPublicKey s u pk) u := by
    simp [postPublicKey, h]
  have hmem : ∀ r ∈ ((postPublicKey s u pk).1).chatKeys,
      r.recipient_id ≠ u ∧ r.sender_id ≠ u := by
    intro r hr
    rw [hstate] at hr
    simp only [deleteUserChatKeys, chatKeys_upsertPublicKey, List.mem_filter,
      Bool.not_eq_true', beq_eq_false_iff_ne] at hr
    exact ⟨hr.1.2, hr.2⟩
  refine ⟨hmem, ?_⟩
  intro c
  refine List.filter_eq_nil_iff.mpr ?_
  intro r hr
  have hr' : r ∈ ((postPublicKey s u pk).1).chatKeys := by
    have := List.mem_filter.mp hr
    exact this.1
  rcases hmem r hr' with ⟨h1, h2⟩
  simp [h1, h2]

/-- C2 witness: a state where user "u" had a public key and wrapped records in
both directions; after the upsert the records are gone. -/
theorem c2_rotation_cleanup_witness :
    (getPublicKey s_c2 "u").isSome = true
    ∧ (∀ r ∈ ((postPublicKey s_c2 "u" "pkNew").1).chatKeys,
        r.recipient_id ≠ "u" ∧ r.sender_id ≠ "u") :=
  ⟨by decide, (c2_rotation_cleanup s_c2 "u" "pkNew" (by decide)).1⟩

/-! ## C7 -/

/-- C7: the two directory writes are idempotent keyed upserts.  Uploading the
same full account-key row twice equals uploading it once and leaves exactly
one row for that user; sharing a wrapped conversation key twice for the same
(conversation, recipient) leaves exactly one row, holding the later write. -/
theorem c7_upserts_idempotent (s : ServerState)
    (u pk emk eprk c snd1 snd2 r k1 k2 : String)
    (hu : (s.userKeys.filter (fun rec => rec.user_id == u)).length ≤ 1)
    (hc : (s.chatKeys.filter
      (fun rec => rec.chat_id == c && rec.recipient_id == r)).length ≤ 1) :
    uploadUserKeys (uploadUserKeys s u pk emk eprk) u pk emk eprk
        = uploadUserKeys s u pk emk eprk
    ∧ ((uploadUserKeys s u pk emk eprk).userKeys.filter
        (fun rec => rec.user_id == u))
        = [{ user_id := u, public_key := pk, encrypted_master_key := some emk,
             encrypted_rsa_private_key := some eprk }]
    ∧ ((shareChatKey (shareChatKey s c snd1 r k1) c snd2 r k2).chatKeys.filter
        (fun rec => rec.chat_id == c && rec.recipient_id == r))
        = [{ chat_id := c, sender_id := snd2, recipient_id := r,
             encrypted_chat_key := k2 }] := by
  refine ⟨?_, ?_, ?_⟩
  · have h := upsertList_idem (fun rec : UserKeyRec => rec.user_id == u)
      { user_id := u, public_key := pk, encrypted_master_key := some emk,
        encrypted_rsa_private_key := some eprk } (by simp) s.userKeys
    simp [uploadUserKeys, h]
  · exact upsertList_filter (fun rec : UserKeyRec => rec.user_id == u)
      { user_id := u, public_key := pk, encrypted_master_key := some emk,
        encrypted_rsa_private_key := some eprk } (by simp) s.userKeys hu
  · have h1 := upsertList_filter
      (fun rec : ChatKeyRec => rec.chat_id == c && rec.recipient_id == r)
      { chat_id := c, sender_id := snd1, recipient_id := r,
        encrypted_chat_key := k1 } (by simp) s.chatKeys hc
    have h2 := upsertList_filter
      (fun rec : ChatKeyRec => rec.chat_id == c && rec.recipient_id == r)
      { chat_id := c, sender_id := snd2, recipient_id := r,
        encrypted_chat_key := k2 } (by simp)
      (shareChatKey s c snd1 r k1).chatKeys (by simp [shareChatKey, h1])
    simpa [shareChatKey] using h2

/-- C7 witness: concrete empty directory, the hypotheses hold trivially. -/
theorem c7_upserts_idempotent_witness :
    ((ServerState.mk [] [] []).userKeys.filter
        (fun rec => rec.user_id == "u")).length ≤ 1
    ∧ uploadUserKeys (uploadUserKeys (ServerState.mk [] [] []) "u" "p" "m" "r")
        "u" "p" "m" "r"
        = uploadUserKeys (ServerState.mk [] [] []) "u" "p" "m" "r" :=
  ⟨by decide,
   (c7_upserts_idempotent (ServerState.mk [] [] []) "u" "p" "m" "r" "c"
     "a" "b" "rcp" "k1" "k2" (by decide) (by decide)).1⟩

/-! ## C8 -/

/-- C8: requesting another user's wrapped account keys is rejected with 403
(the `forbidden` response carries no key material), while the public-key read
ignores the caller identity: it answers the stored key, or 404 when the user
has none on file, for every authenticated caller. -/
theorem c8_access_control (s : ServerState) (caller target : String) :
    (caller ≠ target → getKeysRoute s caller target = .forbidden)
    ∧ getPublicKeyRoute s caller target
        = (match getPublicKey s target with
           | none => .notFound
           | some pk => .ok pk) := by
  constructor
  · intro h
    simp [getKeysRoute, Ne.symm h]
  · rfl

/-- C8 witness: concrete caller "a" asking for "b"'s account keys is refused;
"b"'s public key is readable by "a". -/
theorem c8_access_control_witness :
    ("a" : String) ≠ "b"
    ∧ getKeysRoute s_c2 "a" "b" = .forbidden :=
  ⟨by decide, (c8_access_control s_c2 "a" "b").1 (by decide)⟩

/-! ## C9 -/

/-- Concrete directory state: chat "c" between "a" and "b"; "x" is nobody. -/
def s_c9 : ServerState :=
  { userKeys := [], chatKeys := [],
    chats := [{ id := "c", participants := ["a", "b"] }] }

/-- C9: the HTTP share-key endpoint rejects (400, nothing stored) a recipient
who is not a chat participant, while the socket 'chat:key:share' handler
checks only the sender: it stores the record for the foreign recipient and
pushes it to them. -/
theorem c9_share_paths_diverge (s : ServerState) (chat : Chat)
    (chatId callerId recipientId ek : String)
    (hchat : getChatById s chatId = some chat)
    (hcaller : chat.participants.contains callerId = true)
    (hrec : chat.participants.contains recipientId = false) :
    shareKeyRoute s callerId chatId recipientId ek = (s, .recipientNotInChat)
    ∧ socketChatKeyShare s callerId chatId recipientId ek
        = (shareChatKey s chatId callerId recipientId ek,
           .shared { chatId := chatId, fromUser := callerId,
                     encrypted_chat_key := ek })
    ∧ getChatKey (shareChatKey s chatId callerId recipientId ek)
        chatId recipientId = some ek := by
  have h1 : callerId ∈ chat.participants := by simpa using hcaller
  have h2 : recipientId ∉ chat.participants := by simpa using hrec
  refine ⟨?_, ?_, getChatKey_shareChatKey s chatId callerId recipientId ek⟩
  · simp [shareKeyRoute, hchat, h1, h2]
  · simp [socketChatKeyShare, isUserInChat, hchat, h1]

/-- C9 witness: chat "c" has participants ["a", "b"]; "a" shares towards the
non-participant "x": the HTTP route answers 400 and the socket path stores
and pushes. -/
theorem c9_share_paths_diverge_witness :
    (getChatById s_c9 "c" = some { id := "c", participants := ["a", "b"] })
    ∧ shareKeyRoute s_c9 "a" "c" "x" "ek" = (s_c9, .recipientNotInChat)
    ∧ socketChatKeyShare s_c9 "a" "c" "x" "ek"
        = (shareChatKey s_c9 "c" "a" "x" "ek",
           .shared { chatId := "c", fromUser := "a", encrypted_chat_key := "ek" }) :=
  ⟨by decide,
   (c9_share_paths_diverge s_c9 { id := "c", participants := ["a", "b"] }
     "c" "a" "x" "ek" (by decide) (by decide) (by decide)).1,
   (c9_share_paths_diverge s_c9 { id := "c", participants := ["a", "b"] }
     "c" "a" "x" "ek" (by decide) (by decide) (by decide)).2.1⟩

/-! ## C10 -/

/-- Concrete device vault holding an RSA pair, two cached chat keys (in memory
and in localStorage), the stored private key and the IndexedDB master key. -/
def v_c10 : ClientVault :=
  { privateKey := some "sk", publicKey := some "pub",
    chatKeysMem := [("c1", "k1"), ("c2", "k2")],
    localStorage := [("chatKey_c1", "k1"), ("privateKey", "skjwk"),
                     ("chatKey_c2", "k2"), ("theme", "dark")],
    masterKeyIDB := some "mk" }

/-- C10: logout nulls the in-memory RSA pair and chat-key map and removes the
stored private key and every `chatKey_`-prefixed entry from localStorage, but
leaves the IndexedDB master key unchanged — a later session still finds it and
handleLogin takes the fast path. -/
theorem c10_logout_frame (v : ClientVault) (mk : String) :
    (handleLogout v).privateKey = none
    ∧ (handleLogout v).publicKey = none
    ∧ (handleLogout v).chatKeysMem = []
    ∧ (∀ kv ∈ (handleLogout v).localStorage,
        kv.1.startsWith "chatKey_" = false ∧ kv.1 ≠ "privateKey")
    ∧ (handleLogout v).masterKeyIDB = v.masterKeyIDB
    ∧ (loadMasterKeyFromIndexedDB v = some mk →
        loadMasterKeyFromIndexedDB (handleLogout v) = some mk
        ∧ loginMasterKeyPath (handleLogout v) = .fast) := by
  refine ⟨rfl, rfl, rfl, ?_, rfl, ?_⟩
  · intro kv hkv
    simp only [handleLogout, clearKeys, List.mem_filter, Bool.not_eq_true',
      Bool.or_eq_false_iff, beq_eq_false_iff_ne] at hkv
    exact ⟨hkv.2.1, hkv.2.2⟩
  · intro h
    have h' : loadMasterKeyFromIndexedDB (handleLogout v) = some mk := h
    exact ⟨h', by simp [loginMasterKeyPath, h']⟩

/-- C10 witness: a fully populated vault; after logout the master key is still
there and the fast path is taken. -/
theorem c10_logout_frame_witness :
    loadMasterKeyFromIndexedDB v_c10 = some "mk"
    ∧ (loadMasterKeyFromIndexedDB (handleLogout v_c10) = some "mk"
        ∧ loginMasterKeyPath (handleLogout v_c10) = .fast) :=
  ⟨by decide, (c10_logout_frame v_c10 "mk").2.2.2.2.2 (by decide)⟩

/-! ## C3 -/

/-- Toy crypto model for the C3 counterexample: the server's wrapped private
key "eprkBlob" decrypts only under master key "mkGood"; unwrapping the wrapped
master key "emkBlob" with password "pw" yields "mkGood". -/
def cm_c3 : CryptoModel :=
  { sha256 := fun s => "H" ++ s, b64 := fun s => "B" ++ s,
    pbkdf2 := fun p s => "P" ++ p ++ s,
    aesEncrypt := fun k m => "E" ++ k ++ m,
    aesDecrypt := fun k b =>
      if k == "mkGood" && b == "eprkBlob" then some "sk" else none,
    rsaEncrypt := fun k m => "R" ++ k ++ m,
    rsaDecrypt := fun _ _ => none,
    unwrapMK := fun p b =>
      if p == "pw" && b == "emkBlob" then some "mkGood" else none }

/-- Directory state for C3: user "u" has a full account-key row. -/
def srv_c3 : ServerState :=
  { userKeys := [{ user_id := "u", public_key := "pub",
                   encrypted_master_key := some "emkBlob",
                   encrypted_rsa_private_key := some "eprkBlob" }],
    chatKeys := [], chats := [] }

/-- Vault for C3: the device caches a stale master key "mkBad". -/
def v_c3 : ClientVault :=
  { privateKey := none, publicKey := none, chatKeysMem := [],
    localStorage := [], masterKeyIDB := some "mkBad" }

/-- C3, counterexample: the claim fails in both flows it quantifies over.  In
the login flow (handleLogin, after successful authentication), the locally
cached master key "mkBad" fails to decrypt the wrapped private key, yet the
user sees a success alert — not an encryption-key-mismatch error: login
silently clears the cached entry (clearMasterKeyFromIndexedDB) and recovers
the master key from the server with the password.  And in the session-restore
flow (handleExistingSession), the same failure does raise the mismatch alert,
but the purge never happens: clearMasterKey calls the nonexistent
this.openDB() and swallows the TypeError, so the corrupted entry "mkBad"
survives in the vault and the next attempt reuses it. -/
theorem c3_login_decrypt_failure_cex :
    loadMasterKeyFromIndexedDB v_c3 = some "mkBad"
    ∧ cm_c3.aesDecrypt "mkBad" "eprkBlob" = none
    ∧ (handleLogin cm_c3 srv_c3 "u" "pw" v_c3).2 = .successAlert "mkGood" "sk"
    ∧ (handleLogin cm_c3 srv_c3 "u" "pw" v_c3).1.masterKeyIDB = some "mkGood"
    ∧ (handleExistingSession cm_c3 srv_c3 "u" v_c3).2 = .keyMismatch
    ∧ (handleExistingSession cm_c3 srv_c3 "u" v_c3).1.masterKeyIDB
        = some "mkBad" := by
  refine ⟨rfl, by decide, by decide, by decide, by decide, by decide⟩

/-- C3, amended: in the session-restore flow (handleExistingSession), an
authentication-valid session whose cached master key fails to decrypt the
wrapped private key is reported as the encryption-key-mismatch /
possibly-corrupted-account alert, and a purge of the cached master-key entry
is attempted but silently fails — clearMasterKey calls the nonexistent
this.openDB() and its catch swallows the TypeError — so the corrupted entry
survives in the device vault and the next attempt reuses it.  In the login
flow (handleLogin), the corrupted cached entry is purged (via the working
clearMasterKeyFromIndexedDB), but the failure is not reported as a mismatch:
login silently falls back to password-based recovery of the master key, the
vault afterwards holds exactly the recovery result, and when recovery
succeeds the login completes with a success alert. -/
theorem c3_mismatch_amended (cm : CryptoModel) (srv : ServerState)
    (u mk : String) (v : ClientVault) (r : UserKeyRec)
    (hmk : v.masterKeyIDB = some mk)
    (hr : getUserKeys srv u = some r)
    (hfail : r.encrypted_rsa_private_key.bind (cm.aesDecrypt mk) = none) :
    handleExistingSession cm srv u v = (v, .keyMismatch)
    ∧ (handleExistingSession cm srv u v).1.masterKeyIDB = some mk
    ∧ (∀ password,
        (handleLogin cm srv u password v).1.masterKeyIDB
          = r.encrypted_master_key.bind (cm.unwrapMK password)
        ∧ (∀ mk2 sk,
            r.encrypted_master_key.bind (cm.unwrapMK password) = some mk2 →
            r.encrypted_rsa_private_key.bind (cm.aesDecrypt mk2) = some sk →
            (handleLogin cm srv u password v).2 = .successAlert mk2 sk)) := by
  have hroute : getKeysRoute srv u u
      = .ok r.encrypted_master_key r.encrypted_rsa_private_key r.public_key := by
    simp [getKeysRoute, hr]
  have hsess : handleExistingSession cm srv u v = (v, .keyMismatch) := by
    simp [handleExistingSession, loadMasterKeyFromIndexedDB, hmk, hroute, hfail,
      clearMasterKey]
  refine ⟨hsess, by simp [hsess, hmk], ?_⟩
  intro password
  constructor
  · cases hu : r.encrypted_master_key.bind (cm.unwrapMK password) with
    | none =>
      simp [handleLogin, hroute, loadMasterKeyFromIndexedDB, hmk, hfail, hu,
        clearMasterKeyFromIndexedDB]
    | some mk2 =>
      cases h2 : r.encrypted_rsa_private_key.bind (cm.aesDecrypt mk2) with
      | none =>
        simp [handleLogin, hroute, loadMasterKeyFromIndexedDB, hmk, hfail, hu,
          h2, clearMasterKeyFromIndexedDB, storeMasterKeyInIndexedDB]
      | some sk =>
        simp [handleLogin, hroute, loadMasterKeyFromIndexedDB, hmk, hfail, hu,
          h2, clearMasterKeyFromIndexedDB, storeMasterKeyInIndexedDB]
  · intro mk2 sk hu h2
    simp [handleLogin, hroute, loadMasterKeyFromIndexedDB, hmk, hfail, hu, h2]

/-- C3 witness: the amended theorem applied at the concrete C3 instance — the
session-restore path reports the mismatch while the corrupted cached entry
survives the failed purge, and the login path silently recovers. -/
theorem c3_mismatch_amended_witness :
    (v_c3.masterKeyIDB = some "mkBad"
      ∧ getUserKeys srv_c3 "u" = some
          { user_id := "u", public_key := "pub",
            encrypted_master_key := some "emkBlob",
            encrypted_rsa_private_key := some "eprkBlob" })
    ∧ handleExistingSession cm_c3 srv_c3 "u" v_c3 = (v_c3, .keyMismatch) :=
  ⟨⟨by decide, by decide⟩,
   (c3_mismatch_amended cm_c3 srv_c3 "u" "mkBad" v_c3
     { user_id := "u", public_key := "pub",
       encrypted_master_key := some "emkBlob",
       encrypted_rsa_private_key := some "eprkBlob" }
     (by decide) (by decide) (by decide)).1⟩

/-! ## C6 -/

/-- C6: the derived auth credential is deterministic in (password, email),
equals base64(SHA-256(password ++ ":auth:" ++ email)) — a fast one-way hash
over the password, a domain-separation tag and the account identifier — and is
exactly the password field signup and login transmit to the identity
provider; whenever the derived value differs from the literal password (as
for a real hash), the literal password is therefore not transmitted. -/
theorem c6_auth_credential (cm : CryptoModel)
    (p e p' e' masterKey rsaPub rsaPriv : String) :
    (p = p' → e = e' → deriveAuthPassword cm p e = deriveAuthPassword cm p' e')
    ∧ deriveAuthPassword cm p e = cm.b64 (cm.sha256 (p ++ ":auth:" ++ e))
    ∧ (handleSignupTransmission cm p e masterKey rsaPub rsaPriv).authPassword
        = deriveAuthPassword cm p e
    ∧ handleLoginAuthPassword cm p e = deriveAuthPassword cm p e
    ∧ (deriveAuthPassword cm p e ≠ p →
        (handleSignupTransmission cm p e masterKey rsaPub rsaPriv).authPassword ≠ p
        ∧ handleLoginAuthPassword cm p e ≠ p) := by
  refine ⟨?_, rfl, rfl, rfl, ?_⟩
  · intro hp he
    rw [hp, he]
  · intro h
    exact ⟨h, h⟩

/-- C6 witness: with the toy primitives of `cm_c3`, the derived credential for
password "pw" and email "e" is a tagged hash that differs from the literal
password, so neither signup nor login transmits "pw". -/
theorem c6_auth_credential_witness :
    deriveAuthPassword cm_c3 "pw" "e" ≠ "pw"
    ∧ ((handleSignupTransmission cm_c3 "pw" "e" "mk" "pub" "priv").authPassword ≠ "pw"
        ∧ handleLoginAuthPassword cm_c3 "pw" "e" ≠ "pw") :=
  ⟨by decide,
   (c6_auth_credential cm_c3 "pw" "e" "pw" "e" "mk" "pub" "priv").2.2.2.2
     (by decide)⟩

/-! ## C5 -/

/-- Sharing into a chat that has no record for the given recipient appends the
new row. -/
theorem shareChatKey_fresh (s : ServerState) (c snd r k : String)
    (h : ∀ rec ∈ s.chatKeys, (rec.chat_id == c && rec.recipient_id == r) = false) :
    (shareChatKey s c snd r k).chatKeys
      = s.chatKeys ++ [{ chat_id := c, sender_id := snd, recipient_id := r,
                         encrypted_chat_key := k }] := by
  have hany : (s.chatKeys.any
      (fun rec => rec.chat_id == c && rec.recipient_id == r)) = false :=
    List.any_eq_false.mpr (by intro x hx; simp [h x hx])
  simp [shareChatKey, upsertList, hany]

/-- C5: conversation-key resolution in handleStartChatKey follows the order
local-cache hit, then fetch-and-decrypt of this principal's own wrapped record,
then generate-new; and the first principal to need a key for a fresh two-party
conversation creates exactly 2 wrapped records — one per participant,
including itself — each encrypted under that recipient's public key and stored
keyed by (conversation_id, recipient_id). -/
theorem c5_key_resolution (cm : CryptoModel) (newKey : String)
    (srv : ServerState) (chatId selfId recipientId : String) (v : ClientVault)
    (chat : Chat) (myPub rpk k : String) (v1 : ClientVault)
    (rec : ChatKeyRec) (recs : List ChatKeyRec) :
    (loadChatKey v chatId = some k →
      handleStartChatKey cm newKey srv chatId selfId recipientId v
        = (v, srv, .cachedLocal k))
    ∧ (loadChatKey v chatId = none →
       getChatKeysRoute srv selfId chatId = some recs →
       recs.find? (fun r => r.recipient_id == selfId) = some rec →
       decryptChatKey cm v rec.encrypted_chat_key chatId = some (k, v1) →
       handleStartChatKey cm newKey srv chatId selfId recipientId v
         = (v1, srv, .fetchedFromServer k))
    ∧ (loadChatKey v chatId = none →
       getChatById srv chatId = some chat →
       chat.participants.contains selfId = true →
       chat.participants.contains recipientId = true →
       selfId ≠ recipientId →
       getAllChatKeys srv chatId = [] →
       v.publicKey = some myPub →
       getPublicKey srv recipientId = some rpk →
       (handleStartChatKey cm newKey srv chatId selfId recipientId v).2.2
           = .generatedNew newKey
       ∧ getAllChatKeys
           (handleStartChatKey cm newKey srv chatId selfId recipientId v).2.1 chatId
         = [{ chat_id := chatId, sender_id := selfId, recipient_id := selfId,
              encrypted_chat_key := cm.rsaEncrypt myPub newKey },
            { chat_id := chatId, sender_id := selfId, recipient_id := recipientId,
              encrypted_chat_key := cm.rsaEncrypt rpk newKey }]) := by
  refine ⟨?_, ?_, ?_⟩
  · intro h
    simp [handleStartChatKey, h]
  · intro h0 h1 h2 h3
    simp [handleStartChatKey, h0, h1, h2, h3]
  · intro h0 hchat hself hrecip hne hfresh hpub hrpk
    have hselfmem : selfId ∈ chat.participants := by simpa using hself
    have hrecipmem : recipientId ∈ chat.participants := by simpa using hrecip
    have hnone : ∀ r ∈ srv.chatKeys, (r.chat_id == chatId) = false := by
      intro r hr
      by_contra hcontra
      have : (r.chat_id == chatId) = true := by
        cases h : (r.chat_id == chatId) <;> simp_all
      have : r ∈ getAllChatKeys srv chatId :=
        List.mem_filter.mpr ⟨hr, this⟩
      simp [hfresh] at this
    have hroute : getChatKeysRoute srv selfId chatId = some [] := by
      simp [getChatKeysRoute, hchat, hselfmem, hfresh]
    -- first share: append the self record
    have hshare1 : (shareChatKey srv chatId selfId selfId
        (cm.rsaEncrypt myPub newKey)).chatKeys
        = srv.chatKeys
            ++ [⟨chatId, selfId, selfId, cm.rsaEncrypt myPub newKey⟩] := by
      refine shareChatKey_fresh srv chatId selfId selfId _ ?_
      intro r hr
      simp [hnone r hr]
    have hroute1 : shareKeyRoute srv selfId chatId selfId
        (cm.rsaEncrypt myPub newKey)
        = (shareChatKey srv chatId selfId selfId (cm.rsaEncrypt myPub newKey),
           .ok) := by
      simp [shareKeyRoute, hchat, hselfmem]
    set srv1 := shareChatKey srv chatId selfId selfId (cm.rsaEncrypt myPub newKey)
      with hsrv1
    have hpk1 : getPublicKey srv1 recipientId = some rpk := by
      rw [hsrv1, getPublicKey_shareChatKey]
      exact hrpk
    have hchat1 : getChatById srv1 chatId = some chat := by
      rw [hsrv1, getChatById_shareChatKey]
      exact hchat
    have hroute2 : shareKeyRoute srv1 selfId chatId recipientId
        (cm.rsaEncrypt rpk newKey)
        = (shareChatKey srv1 chatId selfId recipientId (cm.rsaEncrypt rpk newKey),
           .ok) := by
      simp [shareKeyRoute, hchat1, hselfmem, hrecipmem]
    have hshare2 : (shareChatKey srv1 chatId selfId recipientId
        (cm.rsaEncrypt rpk newKey)).chatKeys
        = srv1.chatKeys
            ++ [⟨chatId, selfId, recipientId, cm.rsaEncrypt rpk newKey⟩] := by
      refine shareChatKey_fresh srv1 chatId selfId recipientId _ ?_
      intro r hr
      rw [hsrv1, hshare1] at hr
      rcases List.mem_append.mp hr with hr | hr
      · simp [hnone r hr]
      · simp at hr
        simp [hr, hne]
    have hresult : handleStartChatKey cm newKey srv chatId selfId recipientId v
        = (cacheChatKey v chatId newKey,
           shareChatKey srv1 chatId selfId recipientId (cm.rsaEncrypt rpk newKey),
           .generatedNew newKey) := by
      simp [handleStartChatKey, h0, hroute, hpub, hroute1, ← hsrv1, hpk1, hroute2]
    refine ⟨by simp [hresult], ?_⟩
    rw [hresult]
    show getAllChatKeys
      (shareChatKey srv1 chatId selfId recipientId (cm.rsaEncrypt rpk newKey))
      chatId = _
    unfold getAllChatKeys
    rw [hshare2, hsrv1, hshare1]
    rw [List.filter_append, List.filter_append]
    have : srv.chatKeys.filter (fun r => r.chat_id == chatId) = [] := by
      refine List.filter_eq_nil_iff.mpr ?_
      intro r hr
      simp [hnone r hr]
    simp [this]

/-- Fresh two-party scenario for the C5 witness: chat "c" between "a" and "b",
both have public keys on file, no wrapped records yet; "a"'s vault has an RSA
pair and no cached chat key. -/
def srv_c5 : ServerState :=
  { userKeys := [{ user_id := "a", public_key := "pubA",
                   encrypted_master_key := some "mA",
                   encrypted_rsa_private_key := some "rA" },
                 { user_id := "b", public_key := "pubB",
                   encrypted_master_key := some "mB",
                   encrypted_rsa_private_key := some "rB" }],
    chatKeys := [],
    chats := [{ id := "c", participants := ["a", "b"] }] }

/-- Vault for the C5 witness. -/
def v_c5 : ClientVault :=
  { privateKey := some "skA", publicKey := some "pubA",
    chatKeysMem := [], localStorage := [], masterKeyIDB := some "mkA" }

/-- C5 witness: the fresh-two-party conjunct applied at the concrete
scenario — exactly 2 records, one per participant, each wrapped under the
recipient's public key. -/
theorem c5_key_resolution_witness :
    (loadChatKey v_c5 "c" = none ∧ getAllChatKeys srv_c5 "c" = [])
    ∧ ((handleStartChatKey cm_c3 "K" srv_c5 "c" "a" "b" v_c5).2.2
          = .generatedNew "K"
        ∧ getAllChatKeys (handleStartChatKey cm_c3 "K" srv_c5 "c" "a" "b" v_c5).2.1 "c"
          = [{ chat_id := "c", sender_id := "a", recipient_id := "a",
               encrypted_chat_key := cm_c3.rsaEncrypt "pubA" "K" },
             { chat_id := "c", sender_id := "a", recipient_id := "b",
               encrypted_chat_key := cm_c3.rsaEncrypt "pubB" "K" }]) :=
  ⟨⟨by decide, by decide⟩,
   (c5_key_resolution cm_c3 "K" srv_c5 "c" "a" "b" v_c5
     { id := "c", participants := ["a", "b"] } "pubA" "pubB" "K" v_c5
     { chat_id := "c", sender_id := "a", recipient_id := "a",
       encrypted_chat_key := "w" } []).2.2
     (by decide) (by decide) (by decide) (by decide) (by decide) (by decide)
     (by decide) (by decide)⟩

/-! ## C4 -/

end SocialApp
